import Mathlib

/-!
Verification of the Fusion Engine's cross-project entity resolution,
conflict classification and dependency-graph construction.

The definitions below are a shallow embedding of the TypeScript sources:

* `modules/analyzer/projectScanner.ts` / `astAnalyzer.ts` — the per-file
  analysis records (`ScannedFile`, `ASTDependency`) consumed by the engine;
* `core/pipeline/steps/resolveAndMergeStep.ts` — conflict detection
  (`detectConflictsForEntity`, `compareNameCountProfiles`), unified path
  generation (`generateUnifiedPath`) and the conflict report;
* `core/validator/dependencyGraphBuilder.ts` — import resolution
  (`resolveImportPath`) and graph construction (`buildDependencyGraph`);
* `core/pipeline/steps/mergeStep.ts` — the per-group merge dispatch of
  `runMergeStep`;
* `logic/merger/deepSmartMerge.ts` — the quality-score bookkeeping of
  `deepSmartMerge` (the AST combination itself is performed by external
  babel collaborators and is abstracted by explicit outcome parameters).

JavaScript string-literal unions that are closed in the source are modelled
as inductive types; optional (`?:`) fields become `Option`; JS `Map`s and
plain-object maps become insertion-ordered association lists; in-place
mutation of a found array element becomes a first-match update function.
Untyped `details : Record<string, any>` evidence payloads on conflicts are
not modelled; no claim depends on them.
-/

namespace FusionEngine

/-! ## Per-file analysis records (projectScanner.ts / astAnalyzer.ts) -/

/-- `ScannedFile` from `projectScanner.ts`.  `inferredRole` and
`inferredFrameworkSpecific` are optional string-union fields in the source
(`'component' | 'hook' | 'util' | 'page' | ...`); they are modelled as
`Option String` because the engine compares them textually and substitutes
`"unknown"` for a missing role. -/
structure ScannedFile where
  absolutePath : String
  relativePath : String
  extension : String
  fileName : String
  baseName : String
  sizeKB : Nat
  inferredRole : Option String
  inferredFrameworkSpecific : Option String
deriving DecidableEq, Repr

/-- A `{ name, count }` usage entry (`jsxElementsUsed`, `reactHooksUsed`,
`typesUsedInAnnotations`). -/
structure NameCount where
  name : String
  count : Nat
deriving DecidableEq, Repr

/-- An entry of `ASTDependency.imports`. -/
structure ImportInfo where
  name : String
  path : String
  isRelative : Bool
  importedAs : Option String
deriving DecidableEq, Repr

/-- An entry of `ASTDependency.exports`; `type` is the source's string union
`'function' | 'variable' | 'class' | 'component' | 'default' | 're-export'`. -/
structure ExportInfo where
  name : String
  type : String
deriving DecidableEq, Repr

/-- An entry of `ASTDependency.functions`. -/
structure FunctionInfo where
  name : String
  isExported : Bool
  isAsync : Bool
deriving DecidableEq, Repr

/-- An entry of `ASTDependency.components`. -/
structure ComponentInfo where
  name : String
  isExported : Bool
  isFunctional : Bool
  isMemoized : Option Bool
  isForwardRef : Option Bool
  inferredHOC : Option String
deriving DecidableEq, Repr

/-- An entry of `ASTDependency.contextAPIs`; `type` is the string union
`'Provider' | 'Consumer' | 'Context'`. -/
structure ContextApiInfo where
  name : String
  type : String
deriving DecidableEq, Repr

/-- An entry of `ASTDependency.declaredVariables`. -/
structure VariableInfo where
  name : String
  kind : String
  isExported : Bool
deriving DecidableEq, Repr

/-- An entry of `ASTDependency.declaredTypes`. -/
structure DeclaredTypeInfo where
  name : String
  isExported : Bool
  kind : String
deriving DecidableEq, Repr

/-- `ASTDependency` from `astAnalyzer.ts`: the complete structural analysis
of one source file. -/
structure ASTDependency where
  file : ScannedFile
  imports : List ImportInfo
  exports : List ExportInfo
  functions : List FunctionInfo
  components : List ComponentInfo
  contextAPIs : List ContextApiInfo
  declaredVariables : List VariableInfo
  jsxElementsUsed : List NameCount
  reactHooksUsed : List NameCount
  loc : Nat
  declaredTypes : List DeclaredTypeInfo
  typesUsedInAnnotations : List NameCount
deriving DecidableEq, Repr

/-- `AnalyzedProject` from `workspaceAnalyzer.ts`.  The `analyzedFiles`
plain-object map becomes an insertion-ordered association list, matching
the `Object.entries` iteration order used throughout the engine. -/
structure AnalyzedProject where
  name : String
  rootPath : String
  analyzedFiles : List (String × ASTDependency)
  totalFilesScanned : Nat
  totalLinesOfCode : Nat
  parsingErrors : List String
  totalComponents : Nat
  totalFunctions : Nat
  totalHooks : Nat
deriving DecidableEq, Repr

/-! ## JS-semantics helpers -/

/-- JS `opt || 'unknown'` on an optional string field: `undefined` and the
empty string are falsy. -/
def roleOrUnknown : Option String → String
  | none => "unknown"
  | some s => if s = "" then "unknown" else s

/-- JS truthiness of an optional string (`undefined` and `''` are falsy). -/
def optTruthy : Option String → Bool
  | none => false
  | some s => s ≠ ""

/-- JS `a || b` for an optional string `a` with string default `b`
(used for `imp.importedAs || imp.name`). -/
def jsStrOr (a : Option String) (b : String) : String :=
  match a with
  | none => b
  | some s => if s = "" then b else s

/-- JS `String.prototype.includes`: substring containment. -/
def strContains (s pat : String) : Bool :=
  decide (pat.toList <:+: s.toList)

/-! ## Conflict data model (resolveStep.ts) -/

/-- The closed severity union `'error' | 'warning'` of `MergeConflict`. -/
inductive Severity where
  | error
  | warning
deriving DecidableEq, Repr

/-- The closed conflict taxonomy of `MergeConflict.type`. -/
inductive ConflictType where
  | nameCollision
  | roleMismatch
  | componentStructuralDifference
  | componentHookProfileMismatch
  | componentJsxProfileMismatch
  | componentHocMismatch
  | utilityLocDifference
  | contextTypeMismatch
  | other
deriving DecidableEq, Repr

/-- `MergeConflict` from `resolveStep.ts`.  The untyped `details` evidence
record is not modelled. -/
structure MergeConflict where
  type : ConflictType
  severity : Severity
  message : String
  relatedFiles : List String
deriving DecidableEq, Repr

/-- `MergeConflictReport` from `resolveStep.ts`. -/
structure MergeConflictReport where
  hasConflicts : Bool
  criticalErrors : List MergeConflict
  warnings : List MergeConflict
  totalConflicts : Nat
deriving DecidableEq, Repr

/-- Compilation of the final conflict report from the accumulated conflict
list, as in `resolveAndMergeStep.ts` (step 6) and identically in
`resolveStep.ts` (step 4). -/
def conflictReport (allConflicts : List MergeConflict) : MergeConflictReport :=
  { hasConflicts := decide (allConflicts.length > 0)
    criticalErrors := allConflicts.filter (fun c => c.severity = Severity.error)
    warnings := allConflicts.filter (fun c => c.severity = Severity.warning)
    totalConflicts := allConflicts.length }

/-! ## Profile comparison helpers (resolveAndMergeStep.ts) -/

/-- Insert-or-overwrite on an insertion-ordered association list: the
behaviour of `Map.prototype.set`. -/
def mapUpsert (m : List (String × Nat)) (k : String) (v : Nat) : List (String × Nat) :=
  if m.any (fun p => p.1 = k) then
    m.map (fun p => if p.1 = k then (k, v) else p)
  else
    m ++ [(k, v)]

/-- `new Map(profile.map(item => [item.name, item.count]))`: later duplicate
names overwrite earlier ones. -/
def profileToMap (l : List NameCount) : List (String × Nat) :=
  l.foldl (fun m it => mapUpsert m it.name it.count) []

/-- `Map.prototype.get`. -/
def mapGet (m : List (String × Nat)) (k : String) : Option Nat :=
  (m.find? (fun p => p.1 = k)).map (fun p => p.2)

/-- `compareNameCountProfiles` from `resolveAndMergeStep.ts`:
order-independent comparison of two `{name, count}` profiles. -/
def compareNameCountProfiles (profile1 profile2 : List NameCount) : Bool :=
  if profile1.length ≠ profile2.length then false
  else
    let map1 := profileToMap profile1
    let map2 := profileToMap profile2
    if map1.length ≠ map2.length then false
    else map1.all (fun p => mapGet map2 p.1 = some p.2)

/-- Deterministic string sort modelling `Array.prototype.sort()` on the HOC
name lists (used only to compare the two sorted lists for equality). -/
def insertSorted (x : String) : List String → List String
  | [] => [x]
  | y :: ys => if compare x y = Ordering.gt then y :: insertSorted x ys else x :: y :: ys

/-- Sorts a list of strings; stands in for `JSON.stringify(arr.sort())`
equality comparison of string arrays. -/
def sortStrings (l : List String) : List String :=
  l.foldr insertSorted []

/-! ## Conflict detection (resolveAndMergeStep.ts, `detectConflictsForEntity`) -/

/-- The entity-kind parameter of `detectConflictsForEntity`
(`'component' | 'hook' | 'context' | 'utility'`). -/
inductive EntityType where
  | component
  | hook
  | context
  | utility
deriving DecidableEq, Repr

/-- The display string of an entity kind, used in conflict messages. -/
def entityTypeStr : EntityType → String
  | .component => "component"
  | .hook => "hook"
  | .context => "context"
  | .utility => "utility"

/-- The HOC names attached to a component of the given name, as in
`analysis.components.filter(c => c.name === name && c.inferredHOC).map(c => c.inferredHOC!)`. -/
def hocNamesOf (name : String) (a : ASTDependency) : List String :=
  ((a.components.filter (fun c => c.name = name ∧ optTruthy c.inferredHOC)).filterMap
    (fun c => c.inferredHOC))

/-- `contextAPIs.find(c => c.name === name && c.type === 'Context')?.type`. -/
def contextDefType (name : String) (a : ASTDependency) : Option String :=
  ((a.contextAPIs.find? (fun c => c.name = name ∧ c.type = "Context")).map
    (fun c => c.type))

/-- One iteration of the comparison loop of `detectConflictsForEntity`:
compares a non-first group member `current` against the first member
`first` along every dimension for the given entity kind.  Returns the
conflicts pushed during the iteration together with the value the
`canBeMerged` flag would take if it were `true` on entry (the source only
ever lowers the flag, at the two `severity: 'error'` push sites). -/
def compareWithFirst (name : String) (entityType : EntityType)
    (first current : ASTDependency) : List MergeConflict × Bool :=
  let fp := first.file.relativePath
  let cp := current.file.relativePath
  let et := entityTypeStr entityType
  let firstRole := roleOrUnknown first.file.inferredRole
  let currentRole := roleOrUnknown current.file.inferredRole
  -- Role mismatch: critical error
  let base : List MergeConflict :=
    (if firstRole ≠ currentRole then
      [{ type := .roleMismatch, severity := .error,
         message := s!"Shared {et} \"{name}\" has conflicting inferred roles.",
         relatedFiles := [fp, cp] }]
     else []) ++
    -- LOC difference: warning
    (if first.loc ≠ current.loc then
      [{ type := .utilityLocDifference, severity := .warning,
         message := s!"Shared {et} \"{name}\" has different Lines of Code.",
         relatedFiles := [fp, cp] }]
     else [])
  let baseFlag : Bool := decide (firstRole = currentRole)
  match entityType with
  | .component =>
    match first.components.find? (fun c => c.name = name),
          current.components.find? (fun c => c.name = name) with
    | some firstComponent, some currentComponent =>
      (base ++
        -- Type difference (functional vs class): critical error
        (if firstComponent.isFunctional ≠ currentComponent.isFunctional then
          [{ type := .componentStructuralDifference, severity := .error,
             message := s!"Shared component \"{name}\" has conflicting component types (Functional vs Class).",
             relatedFiles := [fp, cp] }]
         else []) ++
        -- JSX profile mismatch: warning
        (if ¬ compareNameCountProfiles first.jsxElementsUsed current.jsxElementsUsed then
          [{ type := .componentJsxProfileMismatch, severity := .warning,
             message := s!"Shared component \"{name}\" renders different JSX elements.",
             relatedFiles := [fp, cp] }]
         else []) ++
        -- Hook profile mismatch: warning
        (if ¬ compareNameCountProfiles first.reactHooksUsed current.reactHooksUsed then
          [{ type := .componentHookProfileMismatch, severity := .warning,
             message := s!"Shared component \"{name}\" uses different React Hooks.",
             relatedFiles := [fp, cp] }]
         else []) ++
        -- HOC mismatch: warning
        (if sortStrings (hocNamesOf name first) ≠ sortStrings (hocNamesOf name current) then
          [{ type := .componentHocMismatch, severity := .warning,
             message := s!"Shared component \"{name}\" is wrapped by different Higher-Order Components.",
             relatedFiles := [fp, cp] }]
         else []),
       baseFlag && decide (firstComponent.isFunctional = currentComponent.isFunctional))
    | _, _ =>
      -- `if (!firstComponent || !currentComponent) continue;`
      (base, baseFlag)
  | .hook =>
    (base ++
      (if ¬ compareNameCountProfiles first.reactHooksUsed current.reactHooksUsed then
        [{ type := .componentHookProfileMismatch, severity := .warning,
           message := s!"Shared hook \"{name}\" uses different React Hooks in its definition.",
           relatedFiles := [fp, cp] }]
       else []),
     baseFlag)
  | .context =>
    (base ++
      (if contextDefType name first ≠ contextDefType name current then
        [{ type := .contextTypeMismatch, severity := .warning,
           message := s!"Shared context \"{name}\" has different context types (e.g., inferred initial values).",
           relatedFiles := [fp, cp] }]
       else []),
     baseFlag)
  | .utility => (base, baseFlag)

/-- One step of the accumulation loop of `detectConflictsForEntity`:
appends the conflicts of one member comparison and lowers the
`canBeMerged` flag. -/
def detectStep (name : String) (entityType : EntityType) (first : ASTDependency)
    (acc : List MergeConflict × Bool) (current : ASTDependency) :
    List MergeConflict × Bool :=
  let r := compareWithFirst name entityType first current
  (acc.1 ++ r.1, acc.2 && r.2)

/-- `detectConflictsForEntity` from `resolveAndMergeStep.ts`: compares every
non-first member of a group against the first member and accumulates the
conflicts and the `canBeMerged` flag.  The source indexes `analyses[0]`
unconditionally (an empty group would throw, and never occurs: groups are
built by appending to map entries), so the empty group is modelled as
`none`. -/
def detectConflictsForEntity (name : String) (analyses : List ASTDependency)
    (entityType : EntityType) : Option (List MergeConflict × Bool) :=
  match analyses with
  | [] => none
  | first :: rest =>
    some (rest.foldl (detectStep name entityType first) ([], true))

/-! ## Example analyses used by the concrete witnesses below -/

/-- A blank `ScannedFile` for the given relative path. -/
def blankFile (rp : String) : ScannedFile :=
  { absolutePath := "/proj/" ++ rp, relativePath := rp, extension := ".ts",
    fileName := rp, baseName := rp, sizeKB := 1, inferredRole := none,
    inferredFrameworkSpecific := none }

/-- A blank `ASTDependency` for the given relative path. -/
def blankFA (rp : String) : ASTDependency :=
  { file := blankFile rp, imports := [], exports := [], functions := [],
    components := [], contextAPIs := [], declaredVariables := [],
    jsxElementsUsed := [], reactHooksUsed := [], loc := 1,
    declaredTypes := [], typesUsedInAnnotations := [] }

/-- A functional component declaration named `Button`. -/
def exBtnComp : ComponentInfo :=
  { name := "Button", isExported := true, isFunctional := true,
    isMemoized := none, isForwardRef := none, inferredHOC := none }

/-- First project's analysis of a `Button` component file (role `component`). -/
def exBtn1 : ASTDependency :=
  { blankFA "p1/Button.tsx" with
    file := { blankFile "p1/Button.tsx" with inferredRole := some "component" }
    components := [exBtnComp] }

/-- Second project's analysis of a `Button` component file (role `page`),
triggering a role-mismatch error against `exBtn1`. -/
def exBtn2 : ASTDependency :=
  { blankFA "p2/Button.tsx" with
    file := { blankFile "p2/Button.tsx" with inferredRole := some "page" }
    components := [exBtnComp] }

/-- The conflict list the detector produces for the `[exBtn1, exBtn2]`
group. -/
def exBtnConflicts : List MergeConflict :=
  ((detectConflictsForEntity "Button" [exBtn1, exBtn2] EntityType.component).getD
    ([], true)).1

/-! ## Mergeability flag vs error-severity conflicts (claims C1, C3) -/

/-- At least one conflict of severity `error` in a list. -/
def hasErrorConflict (l : List MergeConflict) : Prop :=
  ∃ c ∈ l, c.severity = Severity.error

theorem hasErrorConflict_append (l1 l2 : List MergeConflict) :
    hasErrorConflict (l1 ++ l2) ↔ hasErrorConflict l1 ∨ hasErrorConflict l2 := by
  simp [hasErrorConflict, or_and_right, exists_or]

theorem hasErrorConflict_nil : ¬ hasErrorConflict [] := by
  simp [hasErrorConflict]

/-- The per-member comparison lowers the mergeability flag exactly when it
pushes an error-severity conflict. -/
theorem compareWithFirst_flag_iff (name : String) (et : EntityType)
    (first current : ASTDependency) :
    (compareWithFirst name et first current).2 = false ↔
      hasErrorConflict (compareWithFirst name et first current).1 := by
  unfold compareWithFirst
  cases et <;> dsimp only
  case component =>
    cases hf : first.components.find? (fun c => c.name = name) <;>
      cases hc : current.components.find? (fun c => c.name = name) <;>
      dsimp only <;>
      split_ifs <;>
      simp_all [hasErrorConflict]
  all_goals split_ifs <;> simp_all [hasErrorConflict]

/-- The accumulation loop preserves the flag/error correspondence. -/
theorem detect_foldl_invariant (name : String) (et : EntityType)
    (first : ASTDependency) :
    ∀ (rest : List ASTDependency) (acc : List MergeConflict × Bool),
      (acc.2 = false ↔ hasErrorConflict acc.1) →
      ((rest.foldl (detectStep name et first) acc).2 = false ↔
        hasErrorConflict (rest.foldl (detectStep name et first) acc).1) := by
  intro rest
  induction rest with
  | nil => intro acc h; exact h
  | cons current rest ih =>
    intro acc h
    simp only [List.foldl_cons]
    apply ih
    simp only [detectStep, Bool.and_eq_false_iff, hasErrorConflict_append]
    rw [h, compareWithFirst_flag_iff]

/-- C1.  For every entity group, the mergeability flag computed by
`detectConflictsForEntity` is `false` if and only if at least one conflict
of severity `error` was produced by the pairwise comparisons of the
group's non-first members against its first member; warning-severity
conflicts alone never lower the flag.  (`processEntityType` in
`resolveAndMergeStep.ts` uses this flag unchanged as the group's
mergeability.) -/
theorem detect_canBeMerged_iff_error (name : String)
    (analyses : List ASTDependency) (et : EntityType)
    (conflicts : List MergeConflict) (canBeMerged : Bool)
    (h : detectConflictsForEntity name analyses et = some (conflicts, canBeMerged)) :
    canBeMerged = false ↔ hasErrorConflict conflicts := by
  cases analyses with
  | nil => exact absurd h (by simp [detectConflictsForEntity])
  | cons first rest =>
    have h' := h
    simp only [detectConflictsForEntity, Option.some.injEq] at h'
    have hinv := detect_foldl_invariant name et first rest ([], true)
      (by simp [hasErrorConflict])
    rw [h'] at hinv
    exact hinv

/-- Witness for C1: a concrete two-member `Button` group with a role
mismatch is flagged unmergeable, and the iff holds at that input. -/
theorem detect_canBeMerged_iff_error_witness :
    detectConflictsForEntity "Button" [exBtn1, exBtn2] EntityType.component =
      some (exBtnConflicts, false) ∧
    (false = false ↔ hasErrorConflict exBtnConflicts) :=
  ⟨by decide,
   detect_canBeMerged_iff_error "Button" [exBtn1, exBtn2] EntityType.component
     exBtnConflicts false (by decide)⟩

/-- C3.  A group containing exactly one candidate produces zero conflicts
and is mergeable: the comparison loop never runs. -/
theorem detect_singleton_no_conflicts (name : String) (a : ASTDependency)
    (et : EntityType) :
    detectConflictsForEntity name [a] et = some ([], true) := rfl

/-! ## Conflict report shape (claim C10) -/

theorem length_filter_severity (l : List MergeConflict) :
    (l.filter (fun c => c.severity = Severity.error)).length +
      (l.filter (fun c => c.severity = Severity.warning)).length = l.length := by
  induction l with
  | nil => simp
  | cons c cs ih =>
    cases hc : c.severity <;>
      simp [List.filter_cons, hc, ← ih] <;> omega

/-- C10.  In every produced conflict report, `criticalErrors` is exactly
the collected conflicts of severity `error` and `warnings` exactly those
of severity `warning` (the two partition the collection, severities being
two-valued), `totalConflicts` is the sum of the two list lengths, and
`hasConflicts` holds exactly when `totalConflicts` is positive. -/
theorem conflictReport_partitions (allConflicts : List MergeConflict) :
    (∀ c, c ∈ (conflictReport allConflicts).criticalErrors ↔
        c ∈ allConflicts ∧ c.severity = Severity.error) ∧
    (∀ c, c ∈ (conflictReport allConflicts).warnings ↔
        c ∈ allConflicts ∧ c.severity = Severity.warning) ∧
    (conflictReport allConflicts).totalConflicts =
      (conflictReport allConflicts).criticalErrors.length +
        (conflictReport allConflicts).warnings.length ∧
    ((conflictReport allConflicts).hasConflicts = true ↔
      (conflictReport allConflicts).totalConflicts > 0) := by
  refine ⟨?_, ?_, ?_, ?_⟩
  · intro c; simp [conflictReport, List.mem_filter]
  · intro c; simp [conflictReport, List.mem_filter]
  · simp [conflictReport, length_filter_severity]
  · simp [conflictReport]

/-! ## Unified path generation (resolveAndMergeStep.ts / resolveStep.ts,
`generateUnifiedPath`; both files contain the identical helper) -/

/-- A character kept verbatim by the slug regex `/[^a-z0-9]+/g`. -/
def isSlugChar (c : Char) : Bool :=
  ('a' ≤ c && c ≤ 'z') || ('0' ≤ c && c ≤ '9')

/-- Replaces every maximal run of non-slug characters by a single `'-'`,
i.e. `replace(/[^a-z0-9]+/g, '-')`.  `inRun` records whether the previous
character belonged to a non-slug run. -/
def collapseNonSlug : Bool → List Char → List Char
  | _, [] => []
  | inRun, c :: cs =>
    if isSlugChar c then c :: collapseNonSlug false cs
    else if inRun then collapseNonSlug true cs
    else '-' :: collapseNonSlug true cs

/-- Removes one leading dash, the `^-` alternative of
`replace(/^-|-$/g, '')`. -/
def dropOneLeadingDash : List Char → List Char
  | '-' :: cs => cs
  | l => l

/-- `toLowerCase` modelled character-by-character (ASCII case folding). -/
def strToLower (s : String) : String :=
  String.mk (s.toList.map Char.toLower)

/-- The slug of an entity name: lowercase, non-alphanumeric runs collapsed
to `'-'`, one leading and one trailing dash stripped. -/
def slugify (name : String) : String :=
  let collapsed := collapseNonSlug false (strToLower name).toList
  String.mk ((dropOneLeadingDash (dropOneLeadingDash collapsed.reverse).reverse))

/-- POSIX `path.join` on already-normalized segments. -/
def pathJoin (a b : String) : String :=
  if a = "" then b else a ++ "/" ++ b

/-- `generateUnifiedPath` from `resolveAndMergeStep.ts` (and identically in
`resolveStep.ts`): the deterministic unified destination path of an entity
group.  The source defaults `baseDir` to `"merged"`; every call site uses
the default. -/
def generateUnifiedPath (name : String) (entityType : String)
    (baseDir : String) : String :=
  let slug := slugify name
  let folder :=
    if entityType = "component" then pathJoin baseDir "components"
    else if entityType = "hook" then pathJoin baseDir "hooks"
    else if entityType = "context" then pathJoin baseDir "contexts"
    else if entityType = "utility" then pathJoin baseDir "utils"
    else pathJoin baseDir "common"
  pathJoin folder (slug ++ ".ts")

theorem collapseNonSlug_chars (p : Char → Bool)
    (hp : ∀ c, isSlugChar c = true → p c = true) (hd : p '-' = true) :
    ∀ (b : Bool) (l : List Char), (collapseNonSlug b l).all p = true := by
  intro b l
  induction l generalizing b with
  | nil => rfl
  | cons c cs ih =>
    unfold collapseNonSlug
    split_ifs with h1 h2 <;> simp_all [List.all_cons]

theorem dropOneLeadingDash_sublist (l : List Char) :
    (dropOneLeadingDash l).Sublist l := by
  unfold dropOneLeadingDash
  split
  · exact List.Sublist.cons _ (List.Sublist.refl _)
  · exact List.Sublist.refl _

/-- Every character of a slug is a lowercase letter, a digit, or a dash. -/
theorem slugify_chars (name : String) :
    ((slugify name).toList.all (fun c => isSlugChar c || c = '-')) = true := by
  unfold slugify
  have hall : (collapseNonSlug false (strToLower name).toList).all
      (fun c => isSlugChar c || c = '-') = true :=
    collapseNonSlug_chars _ (by intro c h; simp [h]) (by simp) _ _
  rw [List.all_eq_true] at hall ⊢
  intro c hcmem
  apply hall
  have h1 := dropOneLeadingDash_sublist
    ((dropOneLeadingDash (collapseNonSlug false (strToLower name).toList).reverse).reverse)
  have h2 := (dropOneLeadingDash_sublist
    (collapseNonSlug false (strToLower name).toList).reverse).reverse
  simp only [List.reverse_reverse] at h2
  exact h2.mem (h1.mem (by simpa using hcmem))

/-- C4 counterexample.  For kind `hook` the code places the slug beneath
`hooks/`, which is none of the subdirectories the claim enumerates
(`components/`, `state/`, `containers/`, `utils/`, fallback `common/`). -/
theorem generateUnifiedPath_claimed_dirs_counterexample :
    generateUnifiedPath "useAuth" "hook" "merged" = "merged/hooks/useauth.ts" ∧
    ((["components", "state", "containers", "utils", "common"] : List String).all
      (fun d => generateUnifiedPath "useAuth" "hook" "merged" ≠
        "merged/" ++ d ++ "/useauth.ts")) = true := by
  constructor
  · decide
  · decide

/-- C4 amended.  The unified-path assignment is a pure function of
`(name, kind)`: it returns the lowercase slug of the name (alphanumeric
runs preserved, other runs collapsed to dashes) with the fixed `.ts`
extension beneath the kind-specific subdirectory — `components/` for
components, `hooks/` for hooks, `contexts/` for contexts, `utils/` for
utilities, `common/` as fallback — under the `merged/` base directory. -/
theorem generateUnifiedPath_amended (name kind : String) :
    generateUnifiedPath name kind "merged" =
      "merged/" ++
        (if kind = "component" then "components"
         else if kind = "hook" then "hooks"
         else if kind = "context" then "contexts"
         else if kind = "utility" then "utils"
         else "common") ++ "/" ++ slugify name ++ ".ts" ∧
    ((slugify name).toList.all (fun c => isSlugChar c || c = '-')) = true := by
  refine ⟨?_, slugify_chars name⟩
  unfold generateUnifiedPath pathJoin
  split_ifs <;> simp_all <;> rfl

/-! ## Path helpers for import resolution (dependencyGraphBuilder.ts)

The builder resolves relative specifiers with
`path.relative(projectRootPath, path.resolve(projectRootPath, fromDir, importSource))`.
For an absolute project root this composition is POSIX segment
normalization of `fromDir ++ "/" ++ importSource`, which is what
`joinNorm` computes (excess `..` segments are kept, modelling escapes
above the project root, which never match a known file). -/

/-- Prefix test on strings (`String.prototype.startsWith`). -/
def strStartsWith (s pre : String) : Bool :=
  decide (pre.toList <+: s.toList)

/-- Suffix test on strings (`String.prototype.endsWith`). -/
def strEndsWith (s suf : String) : Bool :=
  decide (suf.toList <:+ s.toList)

/-- Drops the first `n` characters of a string. -/
def strDrop (s : String) (n : Nat) : String :=
  String.mk (s.toList.drop n)

/-- Splits a path into `/`-separated segments. -/
def splitSegsAux (cur : List Char) : List Char → List String
  | [] => [String.mk cur.reverse]
  | c :: cs =>
    if c = '/' then String.mk cur.reverse :: splitSegsAux [] cs
    else splitSegsAux (c :: cur) cs

/-- Splits a path string on `'/'`. -/
def splitPath (s : String) : List String :=
  splitSegsAux [] s.toList

/-- One step of POSIX path normalization over a reversed segment stack:
`""` and `"."` vanish, `".."` pops a real segment. -/
def normStep (acc : List String) (seg : String) : List String :=
  if seg = "" ∨ seg = "." then acc
  else if seg = ".." then
    match acc with
    | [] => [".."]
    | top :: rest => if top = ".." then ".." :: top :: rest else rest
  else seg :: acc

/-- Joins path segments back into a string; an empty segment list renders
as `"."` as `path.join` does. -/
def renderSegs : List String → String
  | [] => "."
  | [s] => s
  | s :: rest => s ++ "/" ++ renderSegs rest

/-- POSIX join-and-normalize of two path strings. -/
def joinNorm (a b : String) : String :=
  renderSegs ((splitPath a ++ splitPath b).foldl normStep []).reverse

/-- `path.dirname` for the relative paths handled by the builder. -/
def dirname (p : String) : String :=
  let parts := splitPath p
  if parts.length ≤ 1 then "." else renderSegs parts.dropLast

/-! ## Import resolution (dependencyGraphBuilder.ts, `resolveImportPath`) -/

/-- The extension list `COMMON_FILE_EXTENSIONS`. -/
def COMMON_FILE_EXTENSIONS : List String :=
  [".ts", ".tsx", ".js", ".jsx", ".json", ".css", ".scss", ".less", ".png", ".svg"]

/-- The analyzed-files map of one project. -/
abbrev AnalyzedFiles := List (String × ASTDependency)

/-- Key membership in the analyzed-files map (`analyzedFilesMap[p]`
truthiness: every analysis record is a truthy object). -/
def hasFile (files : AnalyzedFiles) (p : String) : Bool :=
  files.any (fun kv => kv.1 = p)

/-- The candidate obtained by appending an extension: `basePath.endsWith(ext)
? basePath : basePath + ext`. -/
def withExtension (basePath ext : String) : String :=
  if strEndsWith basePath ext then basePath else basePath ++ ext

/-- The inner extension loop of `resolveImportPath`: for each extension,
first the base path with the extension appended, then `index.<ext>`
inside the base path. -/
def tryExtensions (files : AnalyzedFiles) (basePath : String) :
    List String → Option String
  | [] => none
  | ext :: rest =>
    let tryPathWithExt := withExtension basePath ext
    if hasFile files tryPathWithExt then some tryPathWithExt
    else
      let tryIndexPath := joinNorm basePath ("index" ++ ext)
      if hasFile files tryIndexPath then some tryIndexPath
      else tryExtensions files basePath rest

/-- One candidate base path: exact match, then the extension loop. -/
def tryBasePath (files : AnalyzedFiles) (basePath : String) : Option String :=
  if hasFile files basePath then some basePath
  else tryExtensions files basePath COMMON_FILE_EXTENSIONS

/-- The outer loop over `possiblePathsToTry`: first base path that
resolves wins. -/
def firstResolved (files : AnalyzedFiles) : List String → Option String
  | [] => none
  | b :: bs =>
    match tryBasePath files b with
    | some r => some r
    | none => firstResolved files bs

/-- `resolveImportPath` from `dependencyGraphBuilder.ts`.  Bare package
specifiers (no leading `.`, `/` or `@`) are rejected immediately; relative
specifiers resolve against the importing file's directory; `/`- and
`@/`-prefixed specifiers are tried verbatim and rebased under `src/`. -/
def resolveImportPath (fromFilePath importSource : String)
    (analyzedFilesMap : AnalyzedFiles) (projectRootPath : String) :
    Option String :=
  let fromDir := dirname fromFilePath
  let _ := projectRootPath  -- cancels in the resolve-then-relative composition
  if strStartsWith importSource "." = false ∧ strStartsWith importSource "/" = false ∧
      strStartsWith importSource "@" = false then
    none
  else
    let possiblePathsToTry : List String :=
      if strStartsWith importSource "." then
        [joinNorm fromDir importSource]
      else
        let baseResolvedPath :=
          if strStartsWith importSource "/" then strDrop importSource 1
          else if strStartsWith importSource "@/" then strDrop importSource 2
          else importSource
        [baseResolvedPath, joinNorm "src" baseResolvedPath]
    firstResolved analyzedFilesMap possiblePathsToTry

/-! ## Dependency graph data model (dependencyGraphBuilder.ts) -/

/-- The closed union of edge kinds of `DependencyEdge.type`. -/
inductive EdgeType where
  | importStatic
  | dynamicImport
  | reference
  | contextUsage
  | hocUsage
  | renderUsage
  | typeDependency
deriving DecidableEq, Repr

/-- The source's string for each edge kind. -/
def edgeTypeStr : EdgeType → String
  | .importStatic => "import"
  | .dynamicImport => "dynamic-import"
  | .reference => "reference"
  | .contextUsage => "context-usage"
  | .hocUsage => "hoc-usage"
  | .renderUsage => "render-usage"
  | .typeDependency => "type-dependency"

/-- `FileNode`; `type` holds one of the source's node-type strings. -/
structure FileNode where
  id : String
  name : String
  type : String
  absolutePath : String
  loc : Nat
  isEntryFile : Bool
  hasJSX : Bool
  exportsCount : Nat
  importsCount : Nat
  componentsDeclared : Nat
deriving DecidableEq, Repr

/-- `DependencyEdge`; the source's `from`/`to` fields are named
`fromId`/`toId` because `from` is reserved in Lean. -/
structure DependencyEdge where
  fromId : String
  toId : String
  type : EdgeType
  weight : Option Nat
  importedNames : Option (List String)
  reason : Option String
deriving DecidableEq, Repr

/-- An entry of `DependencyGraph.unresolvedImports`. -/
structure UnresolvedImport where
  fromId : String
  importPath : String
  reason : String
deriving DecidableEq, Repr

/-- The mutable accumulation state of `buildDependencyGraph`'s edge pass:
the `edges` array, the `processedEdges` string set (modelled as a list,
membership being all that is used) and the `unresolvedImports` array. -/
structure BuildState where
  edges : List DependencyEdge
  processedEdges : List String
  unresolvedImports : List UnresolvedImport
deriving DecidableEq, Repr

/-- The empty initial accumulation state. -/
def emptyBuildState : BuildState :=
  { edges := [], processedEdges := [], unresolvedImports := [] }

/-- `DependencyGraph`. -/
structure DependencyGraph where
  nodes : List FileNode
  edges : List DependencyEdge
  totalNodes : Nat
  totalEdges : Nat
  unresolvedImports : List UnresolvedImport
deriving DecidableEq, Repr

/-- The edge-deduplication key string
`` `${sourcePath} -> ${targetPath} (${edgeType})` ``. -/
def edgeIdStr (src tgt : String) (ty : EdgeType) : String :=
  src ++ " -> " ++ tgt ++ " (" ++ edgeTypeStr ty ++ ")"

/-! ## Node typing (dependencyGraphBuilder.ts, `inferFileType`) -/

/-- `inferredFrameworkSpecific?.includes('page')`. -/
def frameworkIncludesPage : Option String → Bool
  | some s => strContains s "page"
  | none => false

/-- `inferFileType`: role, then structural signals, then path conventions,
then extension fallback. -/
def inferFileType (fa : ASTDependency) : String :=
  if fa.file.inferredRole = some "page" ∨ frameworkIncludesPage fa.file.inferredFrameworkSpecific = true then "page"
  else if fa.components.length > 0 then "component"
  else if fa.reactHooksUsed.length > 0 then "hook"
  else if fa.contextAPIs.length > 0 then "utility"
  else if fa.file.inferredRole = some "util" then "utility"
  else if fa.file.inferredRole = some "api" then "api"
  else if fa.file.inferredRole = some "config" then "config"
  else if fa.file.inferredRole = some "asset" then "asset"
  else if fa.file.inferredRole = some "style" then "style"
  else if strContains (strToLower fa.file.relativePath) "routes/" = true then "page"
  else if strContains (strToLower fa.file.relativePath) "layouts/" = true then "component"
  else if fa.file.extension = ".json" then "config"
  else if fa.file.extension = ".css" ∨ fa.file.extension = ".scss" ∨ fa.file.extension = ".less" then "style"
  else if fa.file.extension = ".ts" ∨ fa.file.extension = ".js" ∨ fa.file.extension = ".tsx" ∨ fa.file.extension = ".jsx" then "utility"
  else "unknown"

/-- `ENTRY_FILE_PATTERNS`. -/
def ENTRY_FILE_PATTERNS : List String :=
  ["src/index.tsx", "src/index.jsx", "src/main.tsx", "src/main.jsx",
   "app/layout.tsx", "app/page.tsx", "pages/_app.tsx", "pages/index.tsx"]

/-- Node extraction (step 1 of `buildDependencyGraph`). -/
def mkFileNode (relativePath : String) (fa : ASTDependency) : FileNode :=
  { id := relativePath
    name := fa.file.fileName
    type := inferFileType fa
    absolutePath := fa.file.absolutePath
    loc := fa.loc
    isEntryFile := decide (strToLower relativePath ∈ ENTRY_FILE_PATTERNS)
    hasJSX := decide (fa.components.length > 0 ∨ fa.jsxElementsUsed.length > 0)
    exportsCount := fa.exports.length
    importsCount := fa.imports.length
    componentsDeclared := fa.components.length }

/-! ## Export lookup maps (dependencyGraphBuilder.ts) -/

/-- Insert-or-overwrite for the string-valued lookup maps. -/
def strMapUpsert (m : List (String × String)) (k v : String) :
    List (String × String) :=
  if m.any (fun p => p.1 = k) then
    m.map (fun p => if p.1 = k then (k, v) else p)
  else m ++ [(k, v)]

/-- `Map.prototype.get` on a string-valued lookup map. -/
def strMapGet (m : List (String × String)) (k : String) : Option String :=
  (m.find? (fun p => p.1 = k)).map (fun p => p.2)

/-- `componentExportsMap`: exported component name → defining file. -/
def buildComponentExportsMap (files : AnalyzedFiles) : List (String × String) :=
  files.foldl
    (fun m kv =>
      kv.2.components.foldl
        (fun m comp => if comp.isExported then strMapUpsert m comp.name kv.1 else m) m)
    []

/-- `typeExportsMap`: exported type name → defining file. -/
def buildTypeExportsMap (files : AnalyzedFiles) : List (String × String) :=
  files.foldl
    (fun m kv =>
      kv.2.declaredTypes.foldl
        (fun m td => if td.isExported then strMapUpsert m td.name kv.1 else m) m)
    []

/-! ## Edge construction (step 2 of `buildDependencyGraph`) -/

/-- Updates the first list element satisfying `p` (the effect of
`array.find(...)` followed by in-place mutation of the found object). -/
def updateFirst {α : Type} (p : α → Prop) [DecidablePred p] (f : α → α) :
    List α → List α
  | [] => []
  | a :: as => if p a then f a :: as else a :: updateFirst p f as

/-- `existingEdge.importedNames?.includes(x)` (with `undefined?.includes`
being falsy). -/
def namesContains (names : Option (List String)) (x : String) : Bool :=
  match names with
  | some l => decide (x ∈ l)
  | none => false

/-- `existingEdge.importedNames?.push(x)` (a no-op when `undefined`). -/
def pushOptName (names : Option (List String)) (x : String) :
    Option (List String) :=
  match names with
  | some l => some (l ++ [x])
  | none => none

/-- The edge kind of an import:
`imp.path.includes('import(') ? 'dynamic-import' : 'import'`. -/
def importEdgeKind (imp : ImportInfo) : EdgeType :=
  if strContains imp.path "import(" then .dynamicImport else .importStatic

/-- The duplicate-discovery update for an import edge: extend
`importedNames` with `importedAs` (preferred) or `name` when truthy and
not already present. -/
def dupImportUpdate (imp : ImportInfo) (e : DependencyEdge) : DependencyEdge :=
  if optTruthy imp.importedAs = true ∧
      namesContains e.importedNames (imp.importedAs.getD "") = false then
    { e with importedNames := pushOptName e.importedNames (imp.importedAs.getD "") }
  else if imp.name ≠ "" ∧ namesContains e.importedNames imp.name = false then
    { e with importedNames := pushOptName e.importedNames imp.name }
  else e

/-- Section 2.1 of `buildDependencyGraph`: one import of one file. -/
def processImport (analyzedFiles : AnalyzedFiles)
    (projectRootPath sourcePath : String) (imp : ImportInfo)
    (st : BuildState) : BuildState :=
  let edgeType := importEdgeKind imp
  match resolveImportPath sourcePath imp.path analyzedFiles projectRootPath with
  | some resolvedTargetPath =>
    if sourcePath ≠ resolvedTargetPath then
      let edgeId := edgeIdStr sourcePath resolvedTargetPath edgeType
      if edgeId ∈ st.processedEdges then
        let updated := updateFirst
          (fun e => e.fromId = sourcePath ∧ e.toId = resolvedTargetPath ∧ e.type = edgeType)
          (dupImportUpdate imp) st.edges
        { st with edges := updated }
      else
        { st with
            edges := st.edges ++
              [{ fromId := sourcePath, toId := resolvedTargetPath, type := edgeType,
                 weight := none, importedNames := some [jsStrOr imp.importedAs imp.name],
                 reason := none }]
            processedEdges := st.processedEdges ++ [edgeId] }
    else st
  | none =>
    if strStartsWith imp.path "." = false ∧ strStartsWith imp.path "/" = false ∧
        strStartsWith imp.path "@" = false then
      st  -- external/node_module import: neither an edge nor an unresolved record
    else if sourcePath ≠ imp.path then
      { st with unresolvedImports := st.unresolvedImports ++
          [{ fromId := sourcePath, importPath := imp.path,
             reason := "Could not resolve to an internal project file." }] }
    else st

/-- Section 2.2: one JSX usage entry of one file. -/
def processRenderUsage (componentExportsMap : List (String × String))
    (sourcePath : String) (usedComponent : NameCount) (st : BuildState) :
    BuildState :=
  match strMapGet componentExportsMap usedComponent.name with
  | some resolvedComponentPath =>
    if resolvedComponentPath ≠ sourcePath then
      let edgeId := edgeIdStr sourcePath resolvedComponentPath .renderUsage
      if edgeId ∈ st.processedEdges then
        let updated := updateFirst
          (fun e => e.fromId = sourcePath ∧ e.toId = resolvedComponentPath ∧
            e.type = EdgeType.renderUsage)
          (fun e =>
            if namesContains e.importedNames usedComponent.name = false then
              { e with importedNames := pushOptName e.importedNames usedComponent.name }
            else e)
          st.edges
        { st with edges := updated }
      else
        let n := usedComponent.name
        { st with
            edges := st.edges ++
              [{ fromId := sourcePath, toId := resolvedComponentPath,
                 type := .renderUsage, weight := some usedComponent.count,
                 importedNames := some [usedComponent.name],
                 reason := some s!"Component \"{n}\" rendered in JSX." }]
            processedEdges := st.processedEdges ++ [edgeId] }
    else st
  | none => st

/-- Section 2.3: one context-API usage of one file. -/
def processContextUsage (analyzedFiles : AnalyzedFiles) (sourcePath : String)
    (contextAPI : ContextApiInfo) (st : BuildState) : BuildState :=
  if contextAPI.type = "Provider" ∨ contextAPI.type = "Consumer" then
    match (analyzedFiles.map (fun kv => kv.2)).find?
        (fun f => f.contextAPIs.any
          (fun api => api.name = contextAPI.name ∧ api.type = "Context")) with
    | some contextDefinitionFile =>
      if sourcePath ≠ contextDefinitionFile.file.relativePath then
        let edgeId :=
          edgeIdStr sourcePath contextDefinitionFile.file.relativePath .contextUsage
        if edgeId ∈ st.processedEdges then st
        else
          let n := contextAPI.name
          let t := contextAPI.type
          { st with
              edges := st.edges ++
                [{ fromId := sourcePath, toId := contextDefinitionFile.file.relativePath,
                   type := .contextUsage, weight := none,
                   importedNames := some [contextAPI.name],
                   reason := some s!"Uses React Context \x27{n}\x27 as {t}" }]
              processedEdges := st.processedEdges ++ [edgeId] }
      else st
    | none => st
  else st

/-- Section 2.4: one component declaration's inferred HOC. -/
def processHocUsage (analyzedFiles : AnalyzedFiles) (sourcePath : String)
    (comp : ComponentInfo) (st : BuildState) : BuildState :=
  if optTruthy comp.inferredHOC then
    let hoc := comp.inferredHOC.getD ""
    match (analyzedFiles.map (fun kv => kv.2)).find?
        (fun f => f.exports.any
          (fun ex => ex.name = hoc ∧ (ex.type = "function" ∨ ex.type = "variable"))) with
    | some hocDefinitionFile =>
      if sourcePath ≠ hocDefinitionFile.file.relativePath then
        let edgeId :=
          edgeIdStr sourcePath hocDefinitionFile.file.relativePath .hocUsage
        if edgeId ∈ st.processedEdges then st
        else
          let cn := comp.name
          { st with
              edges := st.edges ++
                [{ fromId := sourcePath, toId := hocDefinitionFile.file.relativePath,
                   type := .hocUsage, weight := none, importedNames := some [hoc],
                   reason := some s!"Component \"{cn}\" is wrapped by HOC \"{hoc}\"" }]
              processedEdges := st.processedEdges ++ [edgeId] }
      else st
    | none => st
  else st

/-- Section 2.5: one type-annotation usage of one file. -/
def processTypeUsage (typeExportsMap : List (String × String))
    (sourcePath : String) (typeUsed : NameCount) (st : BuildState) :
    BuildState :=
  match strMapGet typeExportsMap typeUsed.name with
  | some resolvedTypePath =>
    if resolvedTypePath ≠ sourcePath then
      let edgeId := edgeIdStr sourcePath resolvedTypePath .typeDependency
      if edgeId ∈ st.processedEdges then
        let updated := updateFirst
          (fun e => e.fromId = sourcePath ∧ e.toId = resolvedTypePath ∧
            e.type = EdgeType.typeDependency)
          (fun e =>
            if namesContains e.importedNames typeUsed.name = false then
              { e with importedNames := pushOptName e.importedNames typeUsed.name }
            else e)
          st.edges
        { st with edges := updated }
      else
        let n := typeUsed.name
        { st with
            edges := st.edges ++
              [{ fromId := sourcePath, toId := resolvedTypePath,
                 type := .typeDependency, weight := some typeUsed.count,
                 importedNames := some [typeUsed.name],
                 reason := some s!"Type \"{n}\" used in type annotations." }]
            processedEdges := st.processedEdges ++ [edgeId] }
    else st
  | none => st

/-- All five edge passes for a single file. -/
def processFileEdges (analyzedFiles : AnalyzedFiles) (rootPath : String)
    (componentExportsMap typeExportsMap : List (String × String))
    (entry : String × ASTDependency) (st : BuildState) : BuildState :=
  let sourcePath := entry.1
  let fa := entry.2
  let st1 := fa.imports.foldl
    (fun s imp => processImport analyzedFiles rootPath sourcePath imp s) st
  let st2 :=
    if fa.jsxElementsUsed.length > 0 then
      fa.jsxElementsUsed.foldl
        (fun s u => processRenderUsage componentExportsMap sourcePath u s) st1
    else st1
  let st3 := fa.contextAPIs.foldl
    (fun s c => processContextUsage analyzedFiles sourcePath c s) st2
  let st4 := fa.components.foldl
    (fun s c => processHocUsage analyzedFiles sourcePath c s) st3
  if fa.typesUsedInAnnotations.length > 0 then
    fa.typesUsedInAnnotations.foldl
      (fun s t => processTypeUsage typeExportsMap sourcePath t s) st4
  else st4

/-- `buildDependencyGraph` from `dependencyGraphBuilder.ts`. -/
def buildDependencyGraph (analysis : AnalyzedProject) : DependencyGraph :=
  let nodes := analysis.analyzedFiles.map (fun kv => mkFileNode kv.1 kv.2)
  let componentExportsMap := buildComponentExportsMap analysis.analyzedFiles
  let typeExportsMap := buildTypeExportsMap analysis.analyzedFiles
  let finalState := analysis.analyzedFiles.foldl
    (fun st entry =>
      processFileEdges analysis.analyzedFiles analysis.rootPath
        componentExportsMap typeExportsMap entry st)
    emptyBuildState
  { nodes := nodes
    edges := finalState.edges
    totalNodes := nodes.length
    totalEdges := finalState.edges.length
    unresolvedImports := finalState.unresolvedImports }

/-! ## Edge-set invariants (claims C2, C5) -/

/-- The `(from, to, kind)` key of an edge. -/
def edgeKey (e : DependencyEdge) : String × String × EdgeType :=
  (e.fromId, e.toId, e.type)

/-- The deduplication string of a key; `edgeIdStr e.fromId e.toId e.type`
is definitionally `keyId (edgeKey e)`. -/
def keyId (k : String × String × EdgeType) : String :=
  edgeIdStr k.1 k.2.1 k.2.2

/-- The invariant every edge pass maintains: every edge's deduplication id
has been recorded, edge keys are pairwise distinct, and no edge is a
self-loop. -/
def GoodState (st : BuildState) : Prop :=
  (∀ k ∈ st.edges.map edgeKey, keyId k ∈ st.processedEdges) ∧
  (st.edges.map edgeKey).Pairwise (fun a b => a ≠ b) ∧
  (∀ k ∈ st.edges.map edgeKey, k.1 ≠ k.2.1)

theorem goodState_empty : GoodState emptyBuildState := by
  refine ⟨?_, ?_, ?_⟩ <;> simp [emptyBuildState]

/-- Appending a guarded fresh edge preserves the invariant. -/
theorem goodState_push (st : BuildState) (e : DependencyEdge)
    (h : GoodState st)
    (hnew : edgeIdStr e.fromId e.toId e.type ∉ st.processedEdges)
    (hne : e.fromId ≠ e.toId) :
    GoodState { st with
                  edges := st.edges ++ [e],
                  processedEdges := st.processedEdges ++ [edgeIdStr e.fromId e.toId e.type] } := by
  obtain ⟨h1, h2, h3⟩ := h
  refine ⟨?_, ?_, ?_⟩
  · intro k hk
    simp only [List.map_append, List.map_cons, List.map_nil, List.mem_append,
      List.mem_singleton] at hk ⊢
    rcases hk with hk | hk
    · exact Or.inl (h1 k hk)
    · subst hk
      exact Or.inr rfl
  · show ((st.edges ++ [e]).map edgeKey).Pairwise (fun a b => a ≠ b)
    simp only [List.map_append, List.map_cons, List.map_nil]
    rw [List.pairwise_append]
    refine ⟨h2, List.pairwise_singleton _ _, ?_⟩
    intro a ha b hb
    simp only [List.mem_singleton] at hb
    subst hb
    intro heq
    apply hnew
    have hmem : keyId a ∈ st.processedEdges := h1 a ha
    rw [heq] at hmem
    exact hmem
  · intro k hk
    simp only [List.map_append, List.map_cons, List.map_nil, List.mem_append,
      List.mem_singleton] at hk
    rcases hk with hk | hk
    · exact h3 k hk
    · subst hk; exact hne

theorem updateFirst_map {α β : Type} (p : α → Prop) [DecidablePred p]
    (f : α → α) (g : α → β) (hf : ∀ a, g (f a) = g a) :
    ∀ l : List α, (updateFirst p f l).map g = l.map g := by
  intro l
  induction l with
  | nil => rfl
  | cons a as ih =>
    unfold updateFirst
    split_ifs <;> simp [hf, ih]

/-- A first-match update that preserves edge keys preserves the invariant. -/
theorem goodState_update (st : BuildState) (p : DependencyEdge → Prop)
    [DecidablePred p] (f : DependencyEdge → DependencyEdge)
    (hf : ∀ a, edgeKey (f a) = edgeKey a) (h : GoodState st) :
    GoodState { st with edges := updateFirst p f st.edges } := by
  obtain ⟨h1, h2, h3⟩ := h
  have hmap := updateFirst_map p f edgeKey hf st.edges
  refine ⟨?_, ?_, ?_⟩
  · intro k hk
    dsimp only at hk ⊢
    rw [hmap] at hk
    exact h1 k hk
  · show ((updateFirst p f st.edges).map edgeKey).Pairwise (fun a b => a ≠ b)
    rw [hmap]
    exact h2
  · intro k hk
    dsimp only at hk
    rw [hmap] at hk
    exact h3 k hk

theorem dupImportUpdate_key (imp : ImportInfo) (a : DependencyEdge) :
    edgeKey (dupImportUpdate imp a) = edgeKey a := by
  unfold dupImportUpdate
  split_ifs <;> rfl

theorem dupImportUpdate_weight (imp : ImportInfo) (a : DependencyEdge) :
    (dupImportUpdate imp a).weight = a.weight := by
  unfold dupImportUpdate
  split_ifs <;> rfl

theorem processImport_good (files : AnalyzedFiles) (root src : String)
    (imp : ImportInfo) (st : BuildState) (h : GoodState st) :
    GoodState (processImport files root src imp st) := by
  unfold processImport
  cases hres : resolveImportPath src imp.path files root with
  | none =>
    dsimp only
    split_ifs <;> exact h
  | some tgt =>
    dsimp only
    split_ifs with h1 h2
    · exact goodState_update st _ (dupImportUpdate imp) (dupImportUpdate_key imp) h
    · refine goodState_push st _ h ?_ ?_
      · exact h2
      · exact h1
    · exact h

theorem processRenderUsage_good (cmap : List (String × String)) (src : String)
    (u : NameCount) (st : BuildState) (h : GoodState st) :
    GoodState (processRenderUsage cmap src u st) := by
  unfold processRenderUsage
  cases hres : strMapGet cmap u.name with
  | none => exact h
  | some tgt =>
    dsimp only
    split_ifs with h1 h2
    · refine goodState_update st _ _ ?_ h
      intro a; dsimp only; split_ifs <;> rfl
    · refine goodState_push st _ h ?_ ?_
      · exact h2
      · exact Ne.symm h1
    · exact h

theorem processContextUsage_good (files : AnalyzedFiles) (src : String)
    (api : ContextApiInfo) (st : BuildState) (h : GoodState st) :
    GoodState (processContextUsage files src api st) := by
  unfold processContextUsage
  split_ifs with h0
  · dsimp only
    split
    · rename_i defFile _
      split_ifs with h1 h2
      · exact h
      · refine goodState_push st _ h ?_ ?_
        · exact h2
        · exact h1
      · exact h
    · exact h
  · exact h

theorem processHocUsage_good (files : AnalyzedFiles) (src : String)
    (comp : ComponentInfo) (st : BuildState) (h : GoodState st) :
    GoodState (processHocUsage files src comp st) := by
  unfold processHocUsage
  split_ifs with h0
  · dsimp only
    split
    · rename_i defFile _
      split_ifs with h1 h2
      · exact h
      · refine goodState_push st _ h ?_ ?_
        · exact h2
        · exact h1
      · exact h
    · exact h
  · exact h

theorem processTypeUsage_good (tmap : List (String × String)) (src : String)
    (tu : NameCount) (st : BuildState) (h : GoodState st) :
    GoodState (processTypeUsage tmap src tu st) := by
  unfold processTypeUsage
  cases hres : strMapGet tmap tu.name with
  | none => exact h
  | some tgt =>
    dsimp only
    split_ifs with h1 h2
    · refine goodState_update st _ _ ?_ h
      intro a; dsimp only; split_ifs <;> rfl
    · refine goodState_push st _ h ?_ ?_
      · exact h2
      · exact Ne.symm h1
    · exact h

theorem foldl_goodState {α : Type} (f : BuildState → α → BuildState)
    (hf : ∀ st a, GoodState st → GoodState (f st a)) :
    ∀ (l : List α) (st : BuildState), GoodState st → GoodState (l.foldl f st) := by
  intro l
  induction l with
  | nil => exact fun st h => h
  | cons a as ih =>
    intro st h
    simp only [List.foldl_cons]
    exact ih _ (hf st a h)

theorem processFileEdges_good (files : AnalyzedFiles) (root : String)
    (cmap tmap : List (String × String)) (entry : String × ASTDependency)
    (st : BuildState) (h : GoodState st) :
    GoodState (processFileEdges files root cmap tmap entry st) := by
  have himp : ∀ (s : BuildState), GoodState s → GoodState
      (entry.2.imports.foldl (fun s imp => processImport files root entry.1 imp s) s) :=
    fun s hs => foldl_goodState _
      (fun s' i hs' => processImport_good files root entry.1 i s' hs') _ s hs
  have hrender : ∀ (s : BuildState), GoodState s → GoodState
      (entry.2.jsxElementsUsed.foldl (fun s u => processRenderUsage cmap entry.1 u s) s) :=
    fun s hs => foldl_goodState _
      (fun s' u hs' => processRenderUsage_good cmap entry.1 u s' hs') _ s hs
  have hctx : ∀ (s : BuildState), GoodState s → GoodState
      (entry.2.contextAPIs.foldl (fun s c => processContextUsage files entry.1 c s) s) :=
    fun s hs => foldl_goodState _
      (fun s' c hs' => processContextUsage_good files entry.1 c s' hs') _ s hs
  have hhoc : ∀ (s : BuildState), GoodState s → GoodState
      (entry.2.components.foldl (fun s c => processHocUsage files entry.1 c s) s) :=
    fun s hs => foldl_goodState _
      (fun s' c hs' => processHocUsage_good files entry.1 c s' hs') _ s hs
  have htyp : ∀ (s : BuildState), GoodState s → GoodState
      (entry.2.typesUsedInAnnotations.foldl (fun s t => processTypeUsage tmap entry.1 t s) s) :=
    fun s hs => foldl_goodState _
      (fun s' t hs' => processTypeUsage_good tmap entry.1 t s' hs') _ s hs
  unfold processFileEdges
  dsimp only
  split_ifs <;>
    first
    | exact htyp _ (hhoc _ (hctx _ (hrender _ (himp _ h))))
    | exact hhoc _ (hctx _ (hrender _ (himp _ h)))
    | exact htyp _ (hhoc _ (hctx _ (himp _ h)))
    | exact hhoc _ (hctx _ (himp _ h))

/-- The final accumulation state of `buildDependencyGraph` satisfies the
invariant. -/
theorem buildGraphState_good (analysis : AnalyzedProject) :
    GoodState (analysis.analyzedFiles.foldl
      (fun st entry =>
        processFileEdges analysis.analyzedFiles analysis.rootPath
          (buildComponentExportsMap analysis.analyzedFiles)
          (buildTypeExportsMap analysis.analyzedFiles) entry st)
      emptyBuildState) :=
  foldl_goodState _
    (fun st entry h =>
      processFileEdges_good analysis.analyzedFiles analysis.rootPath
        (buildComponentExportsMap analysis.analyzedFiles)
        (buildTypeExportsMap analysis.analyzedFiles) entry st h)
    analysis.analyzedFiles emptyBuildState goodState_empty

theorem buildDependencyGraph_good (analysis : AnalyzedProject) :
    (((buildDependencyGraph analysis).edges.map edgeKey).Pairwise
      (fun a b => a ≠ b)) ∧
    ∀ k ∈ (buildDependencyGraph analysis).edges.map edgeKey, k.1 ≠ k.2.1 := by
  have h := buildGraphState_good analysis
  exact ⟨h.2.1, h.2.2⟩

/-- C5.  No edge of any produced dependency graph, of any kind, is a
self-loop: `from == to` never produces an edge (every edge-creation site
is guarded by a source-target inequality check). -/
theorem graph_no_self_edges (analysis : AnalyzedProject) :
    ∀ e ∈ (buildDependencyGraph analysis).edges, e.fromId ≠ e.toId := by
  intro e he
  exact (buildDependencyGraph_good analysis).2 (edgeKey e)
    (List.mem_map_of_mem edgeKey he)

/-- Witness data: file `a.ts` importing `./b` (twice, under the names `x`
and `y`) next to file `b.ts`. -/
def exImpX : ImportInfo :=
  { name := "x", path := "./b", isRelative := true, importedAs := none }

/-- The second discovery of the same import relationship, under name `y`. -/
def exImpY : ImportInfo :=
  { name := "y", path := "./b", isRelative := true, importedAs := none }

/-- The two-file analyzed-files map used by the import examples. -/
def exFilesAB : AnalyzedFiles :=
  [("a.ts", blankFA "a.ts"), ("b.ts", blankFA "b.ts")]

/-- The build state after the first discovery of `a.ts -> b.ts (import)`. -/
def exStOne : BuildState :=
  processImport exFilesAB "/root" "a.ts" exImpX emptyBuildState

/-- A concrete project whose graph has the single edge
`a.ts -> b.ts (import)`. -/
def exProjectAB : AnalyzedProject :=
  { name := "p", rootPath := "/root",
    analyzedFiles := [("a.ts", { blankFA "a.ts" with imports := [exImpX] }),
                      ("b.ts", blankFA "b.ts")],
    totalFilesScanned := 2, totalLinesOfCode := 2, parsingErrors := [],
    totalComponents := 0, totalFunctions := 0, totalHooks := 0 }

/-- The edge the example project's graph contains. -/
def exEdgeAB : DependencyEdge :=
  { fromId := "a.ts", toId := "b.ts", type := .importStatic, weight := none,
    importedNames := some ["x"], reason := none }

/-- Witness for C5: the example project's graph contains an edge, and that
edge is not a self-loop. -/
theorem graph_no_self_edges_witness :
    exEdgeAB ∈ (buildDependencyGraph exProjectAB).edges ∧
    exEdgeAB.fromId ≠ exEdgeAB.toId :=
  ⟨by decide, graph_no_self_edges exProjectAB exEdgeAB (by decide)⟩

/-- C2 counterexample.  When `a.ts -> b.ts (import)` is discovered a second
time, no second edge is created and `importedNames` is extended, but the
edge's `weight` is `none` before and after the duplicate discovery: it
does not strictly increase (no duplicate-discovery site ever touches
`weight`). -/
theorem duplicate_import_weight_counterexample :
    (processImport exFilesAB "/root" "a.ts" exImpY exStOne).edges.length =
      exStOne.edges.length ∧
    (processImport exFilesAB "/root" "a.ts" exImpY exStOne).edges.map
      (fun e => e.weight) = exStOne.edges.map (fun e => e.weight) ∧
    exStOne.edges.map (fun e => e.weight) = [none] ∧
    (processImport exFilesAB "/root" "a.ts" exImpY exStOne).edges.map
      (fun e => e.importedNames) = [some ["x", "y"]] := by
  decide

/-- C2 amended.  Edges are unique per `(from, to, kind)` in every produced
graph, and a repeat discovery of an already-processed import relationship
never creates a second edge (the multiset of edge keys is unchanged) and
leaves every edge's `weight` unchanged rather than strictly increasing it;
only `importedNames` may be extended. -/
theorem edges_unique_dup_leaves_weight (analysis : AnalyzedProject)
    (files : AnalyzedFiles) (root src tgt : String) (imp : ImportInfo)
    (st : BuildState)
    (hres : resolveImportPath src imp.path files root = some tgt)
    (hne : src ≠ tgt)
    (hdup : edgeIdStr src tgt (importEdgeKind imp) ∈ st.processedEdges) :
    (((buildDependencyGraph analysis).edges.map edgeKey).Pairwise
      (fun a b => a ≠ b)) ∧
    (processImport files root src imp st).edges.map edgeKey =
      st.edges.map edgeKey ∧
    (processImport files root src imp st).edges.map (fun e => e.weight) =
      st.edges.map (fun e => e.weight) := by
  have hpi : processImport files root src imp st =
      { st with
          edges := updateFirst
            (fun e => e.fromId = src ∧ e.toId = tgt ∧ e.type = importEdgeKind imp)
            (dupImportUpdate imp) st.edges } := by
    unfold processImport
    rw [hres]
    dsimp only
    rw [if_pos hne, if_pos hdup]
  refine ⟨(buildDependencyGraph_good analysis).1, ?_, ?_⟩
  · rw [hpi]
    exact updateFirst_map
      (fun e => e.fromId = src ∧ e.toId = tgt ∧ e.type = importEdgeKind imp)
      (dupImportUpdate imp) edgeKey (dupImportUpdate_key imp) st.edges
  · rw [hpi]
    exact updateFirst_map
      (fun e => e.fromId = src ∧ e.toId = tgt ∧ e.type = importEdgeKind imp)
      (dupImportUpdate imp) (fun e => e.weight) (dupImportUpdate_weight imp)
      st.edges

/-- Witness for the amended C2 at the concrete duplicate discovery. -/
theorem edges_unique_dup_leaves_weight_witness :
    (((buildDependencyGraph exProjectAB).edges.map edgeKey).Pairwise
      (fun a b => a ≠ b)) ∧
    (processImport exFilesAB "/root" "a.ts" exImpY exStOne).edges.map edgeKey =
      exStOne.edges.map edgeKey ∧
    (processImport exFilesAB "/root" "a.ts" exImpY exStOne).edges.map
      (fun e => e.weight) = exStOne.edges.map (fun e => e.weight) :=
  edges_unique_dup_leaves_weight exProjectAB exFilesAB "/root" "a.ts" "b.ts"
    exImpY exStOne (by decide) (by decide) (by decide)

/-! ## Bare package specifiers (claim C8) -/

/-- C8.  An import whose raw specifier is a bare package specifier (no
leading `.`, `/` or `@`) is skipped entirely: `resolveImportPath` rejects
it and `buildDependencyGraph`'s import pass leaves the state untouched —
no edge and no `unresolvedImports` entry. -/
theorem bare_import_skipped (files : AnalyzedFiles) (root src : String)
    (imp : ImportInfo) (st : BuildState)
    (h1 : strStartsWith imp.path "." = false)
    (h2 : strStartsWith imp.path "/" = false)
    (h3 : strStartsWith imp.path "@" = false) :
    processImport files root src imp st = st := by
  have hres : resolveImportPath src imp.path files root = none := by
    unfold resolveImportPath
    dsimp only
    rw [if_pos ⟨h1, h2, h3⟩]
  unfold processImport
  rw [hres]
  dsimp only
  rw [if_pos ⟨h1, h2, h3⟩]

/-- The bare external import of scenario D. -/
def exImpLeftPad : ImportInfo :=
  { name := "leftPad", path := "left-pad", isRelative := false,
    importedAs := none }

/-- Witness for C8: importing `left-pad` leaves the empty state unchanged. -/
theorem bare_import_skipped_witness :
    processImport exFilesAB "/root" "a.ts" exImpLeftPad emptyBuildState =
      emptyBuildState :=
  bare_import_skipped exFilesAB "/root" "a.ts" exImpLeftPad emptyBuildState
    (by decide) (by decide) (by decide)

/-! ## Import candidate completion order (claim C9) -/

/-- Modelled from the claim's words: for each base path try (a) the exact
match, then (b) the base path with each known extension appended, then
(c) each `index.<ext>` file inside the base path — (b) exhausted before
(c) begins. -/
def specOrderCandidates (basePath : String) : List String :=
  basePath ::
    (COMMON_FILE_EXTENSIONS.map (fun ext => withExtension basePath ext) ++
     COMMON_FILE_EXTENSIONS.map (fun ext => joinNorm basePath ("index" ++ ext)))

/-- `tryBasePath` as the claim orders the candidates. -/
def tryBasePathSpecOrder (files : AnalyzedFiles) (basePath : String) :
    Option String :=
  (specOrderCandidates basePath).find? (fun p => hasFile files p)

/-- The outer candidate loop over the claim-ordered completion. -/
def firstResolvedSpecOrder (files : AnalyzedFiles) : List String → Option String
  | [] => none
  | b :: bs =>
    match tryBasePathSpecOrder files b with
    | some r => some r
    | none => firstResolvedSpecOrder files bs

/-- `resolveImportPath` with the claim's candidate order substituted for
the source's interleaved order (identical otherwise). -/
def resolveImportPathSpecOrder (fromFilePath importSource : String)
    (analyzedFilesMap : AnalyzedFiles) (projectRootPath : String) :
    Option String :=
  let fromDir := dirname fromFilePath
  let _ := projectRootPath
  if strStartsWith importSource "." = false ∧ strStartsWith importSource "/" = false ∧
      strStartsWith importSource "@" = false then
    none
  else
    let possiblePathsToTry : List String :=
      if strStartsWith importSource "." then
        [joinNorm fromDir importSource]
      else
        let baseResolvedPath :=
          if strStartsWith importSource "/" then strDrop importSource 1
          else if strStartsWith importSource "@/" then strDrop importSource 2
          else importSource
        [baseResolvedPath, joinNorm "src" baseResolvedPath]
    firstResolvedSpecOrder analyzedFilesMap possiblePathsToTry

/-- Files for the order counterexample: both `widgets/Card.js` and
`widgets/Card/index.ts` exist. -/
def exFilesCD : AnalyzedFiles :=
  [("a.tsx", blankFA "a.tsx"),
   ("widgets/Card.js", blankFA "widgets/Card.js"),
   ("widgets/Card/index.ts", blankFA "widgets/Card/index.ts")]

/-- C9 counterexample.  The source interleaves the extension-append and
index checks per extension, so with both `widgets/Card.js` and
`widgets/Card/index.ts` present it resolves `./widgets/Card` to
`widgets/Card/index.ts` (`index.ts` is checked before `.js` is appended),
while the claim's order — all appended extensions before any index file —
would pick `widgets/Card.js`. -/
theorem resolve_candidate_order_counterexample :
    resolveImportPath "a.tsx" "./widgets/Card" exFilesCD "/root" =
      some "widgets/Card/index.ts" ∧
    resolveImportPathSpecOrder "a.tsx" "./widgets/Card" exFilesCD "/root" =
      some "widgets/Card.js" ∧
    ("widgets/Card/index.ts" : String) ≠ "widgets/Card.js" := by
  decide

/-- The per-base-path candidate order the source actually uses: the exact
match, then for each known extension in order, the base path with that
extension appended followed by `index.<ext>` inside the base path. -/
def interleavedCandidates (basePath : String) : List String :=
  basePath ::
    (COMMON_FILE_EXTENSIONS.map (fun ext =>
      [withExtension basePath ext, joinNorm basePath ("index" ++ ext)])).flatten

theorem tryExtensions_eq_find (files : AnalyzedFiles) (basePath : String) :
    ∀ exts : List String,
      tryExtensions files basePath exts =
        ((exts.map (fun ext => [withExtension basePath ext,
          joinNorm basePath ("index" ++ ext)])).flatten).find?
          (fun p => hasFile files p) := by
  intro exts
  induction exts with
  | nil => rfl
  | cons ext rest ih =>
    unfold tryExtensions
    dsimp only
    simp only [List.map_cons, List.flatten_cons, List.cons_append, List.nil_append]
    by_cases h1 : hasFile files (withExtension basePath ext) = true
    · rw [if_pos h1, List.find?_cons_of_pos _ h1]
    · rw [if_neg h1, List.find?_cons_of_neg _ h1]
      by_cases h2 : hasFile files (joinNorm basePath ("index" ++ ext)) = true
      · rw [if_pos h2, List.find?_cons_of_pos _ h2]
      · rw [if_neg h2, List.find?_cons_of_neg _ h2, ih]

theorem tryBasePath_eq_interleaved (files : AnalyzedFiles) (basePath : String) :
    tryBasePath files basePath =
      (interleavedCandidates basePath).find? (fun p => hasFile files p) := by
  unfold tryBasePath interleavedCandidates
  by_cases h : hasFile files basePath = true
  · rw [if_pos h, List.find?_cons_of_pos _ h]
  · rw [if_neg h, List.find?_cons_of_neg _ h, tryExtensions_eq_find]

/-- The freshly created import edge of one import discovery. -/
def mkImportEdge (src tgt : String) (imp : ImportInfo) : DependencyEdge :=
  { fromId := src, toId := tgt, type := importEdgeKind imp, weight := none,
    importedNames := some [jsStrOr imp.importedAs imp.name], reason := none }

/-- C9 amended.  A relative specifier that resolves to a known file after
completion produces exactly one new import edge from the importer to the
resolved file, whose `importedNames` contain the imported name
(`importedAs ?? name`); the candidate completion tries the exact match
first and then, for each known extension in order, the base path with
that extension appended followed by `index.<ext>` inside the base path
treated as a directory — first match wins. -/
theorem import_edge_created_amended (files : AnalyzedFiles)
    (root src tgt : String) (imp : ImportInfo) (st : BuildState)
    (hres : resolveImportPath src imp.path files root = some tgt)
    (hne : src ≠ tgt)
    (hnew : edgeIdStr src tgt (importEdgeKind imp) ∉ st.processedEdges) :
    (processImport files root src imp st).edges =
      st.edges ++ [mkImportEdge src tgt imp] ∧
    ∀ basePath, tryBasePath files basePath =
      (interleavedCandidates basePath).find? (fun p => hasFile files p) := by
  refine ⟨?_, fun basePath => tryBasePath_eq_interleaved files basePath⟩
  unfold processImport
  rw [hres]
  dsimp only
  rw [if_pos hne, if_neg hnew]
  rfl

/-- The scenario-C import of `./widgets/Card` from `a.tsx`. -/
def exImpCard : ImportInfo :=
  { name := "Card", path := "./widgets/Card", isRelative := true,
    importedAs := none }

/-- The scenario-C analyzed files: `widgets/Card.tsx` exists. -/
def exFilesC : AnalyzedFiles :=
  [("a.tsx", blankFA "a.tsx"), ("widgets/Card.tsx", blankFA "widgets/Card.tsx")]

/-- Witness for the amended C9 at scenario C: exactly one import edge
`a.tsx -> widgets/Card.tsx` carrying the imported name `Card`. -/
theorem import_edge_created_amended_witness :
    (processImport exFilesC "/root" "a.tsx" exImpCard emptyBuildState).edges =
      emptyBuildState.edges ++ [mkImportEdge "a.tsx" "widgets/Card.tsx" exImpCard] :=
  (import_edge_created_amended exFilesC "/root" "a.tsx" "widgets/Card.tsx"
    exImpCard emptyBuildState (by decide) (by decide) (by decide)).1

/-! ## Merge dispatch (mergeStep.ts, `runMergeStep`; claim C6) -/

/-- The closed status union of `FinalMergedEntity.status`
(`'merged' | 'skipped-conflict' | 'error' | 'merged-with-warnings'`). -/
inductive MergeStatus where
  | merged
  | skippedConflict
  | error
  | mergedWithWarnings
deriving DecidableEq, Repr

/-- The closed union of `FinalMergedEntity.mergeStrategyUsed`. -/
inductive MergeStrategy where
  | autoSelectDominant
  | autoCombineDistinct
  | manualInterventionRequired
  | skippedDueToCriticalConflict
  | errorStrategy
deriving DecidableEq, Repr

/-- A normalized entity as consumed by the merge step: the
`NormalizedEntityBase` fields of `normalizeStep.ts` together with the
`originalPaths`, `loc` and `isShared` attributes `runMergeStep` and
`deepSmartMerge` read off these records. -/
structure NormalizedEntity where
  id : String
  name : String
  unifiedPath : String
  normalizedCode : String
  originalPaths : List String
  loc : Nat
  isShared : Bool
deriving DecidableEq, Repr

/-- The `FinalMergedEntity` record `runMergeStep` pushes for an entity
group with critical conflicts (the placeholder `mergedAST` is an external
babel value and is not modelled). -/
structure SkippedEntity where
  id : String
  name : String
  unifiedPath : String
  status : MergeStatus
  originalPaths : List String
  loc : Nat
  mergedFromCount : Nat
  mergeStrategyUsed : MergeStrategy
  needsManualReview : Bool
deriving DecidableEq, Repr

/-- The decision `runMergeStep` takes for one unified-id group: either the
skip record, or the invocation of the `deepSmartMerge` collaborator with
the group and its auto-resolvable warnings.  `deepSmartMerge` is invoked
exactly on the `merge` constructor. -/
inductive MergeDispatch where
  | skip (record : SkippedEntity)
  | merge (entityName : String) (entities : List NormalizedEntity)
      (warningsToAutoResolve : List MergeConflict)
deriving DecidableEq, Repr

/-- Whether the dispatch skipped the group. -/
def MergeDispatch.isSkip : MergeDispatch → Bool
  | .skip _ => true
  | .merge _ _ _ => false

/-- The status of the skip record, when the group was skipped. -/
def MergeDispatch.skipStatus : MergeDispatch → Option MergeStatus
  | .skip r => some r.status
  | .merge _ _ _ => none

/-- The manual-review flag of the skip record, when the group was skipped. -/
def MergeDispatch.skipNeedsReview : MergeDispatch → Option Bool
  | .skip r => some r.needsManualReview
  | .merge _ _ _ => none

/-- The per-group dispatch of `runMergeStep` (`mergeStep.ts`): filters the
report's critical errors and warnings down to those relating the group's
original paths, and skips the group exactly when a critical conflict
remains.  Groups are non-empty, so the first member is passed separately. -/
def dispatchEntity (mergeConflicts : MergeConflictReport) (unifiedId : String)
    (first : NormalizedEntity) (rest : List NormalizedEntity) : MergeDispatch :=
  let entityName := first.name
  let criticalConflicts := mergeConflicts.criticalErrors.filter
    (fun c => first.originalPaths.any (fun op => op ∈ c.relatedFiles))
  let warningsToAutoResolve := mergeConflicts.warnings.filter
    (fun c => first.originalPaths.any (fun op => op ∈ c.relatedFiles))
  if criticalConflicts.length > 0 then
    .skip { id := unifiedId, name := entityName,
            unifiedPath := first.unifiedPath,
            status := .skippedConflict,
            originalPaths := first.originalPaths,
            loc := first.loc,
            mergedFromCount := (first :: rest).length,
            mergeStrategyUsed := .skippedDueToCriticalConflict,
            needsManualReview := true }
  else .merge entityName (first :: rest) warningsToAutoResolve

/-- C6.  An entity whose attached conflicts include at least one
error-severity conflict relating one of its original paths is dispatched
as `skip`: its record carries status `skipped-conflict` and the
manual-review flag, and the downstream `deepSmartMerge` collaborator
(invoked only on the `merge` constructor) is not called for it. -/
theorem error_conflict_dispatches_skip (allConflicts : List MergeConflict)
    (unifiedId : String) (first : NormalizedEntity)
    (rest : List NormalizedEntity)
    (h : ∃ c ∈ allConflicts, c.severity = Severity.error ∧
      ∃ op ∈ first.originalPaths, op ∈ c.relatedFiles) :
    (dispatchEntity (conflictReport allConflicts) unifiedId first rest).isSkip = true ∧
    (dispatchEntity (conflictReport allConflicts) unifiedId first rest).skipStatus =
      some MergeStatus.skippedConflict ∧
    (dispatchEntity (conflictReport allConflicts) unifiedId first rest).skipNeedsReview =
      some true := by
  obtain ⟨c, hc, hsev, op, hop, hrel⟩ := h
  have hcrit : c ∈ (conflictReport allConflicts).criticalErrors := by
    simp only [conflictReport, List.mem_filter]
    exact ⟨hc, by simp [hsev]⟩
  have hmem : c ∈ (conflictReport allConflicts).criticalErrors.filter
      (fun c => first.originalPaths.any (fun op => op ∈ c.relatedFiles)) := by
    rw [List.mem_filter]
    refine ⟨hcrit, ?_⟩
    simp only [List.any_eq_true]
    exact ⟨op, hop, by simp [hrel]⟩
  have hlen : 0 < ((conflictReport allConflicts).criticalErrors.filter
      (fun c => first.originalPaths.any (fun op => op ∈ c.relatedFiles))).length :=
    List.length_pos.mpr (List.ne_nil_of_mem hmem)
  unfold dispatchEntity
  dsimp only
  rw [if_pos hlen]
  exact ⟨rfl, rfl, rfl⟩

/-- A concrete error-severity conflict relating the witness entity. -/
def exConflictErr : MergeConflict :=
  { type := .roleMismatch, severity := .error,
    message := "Shared component \"Button\" has conflicting inferred roles.",
    relatedFiles := ["p1/Button.tsx", "p2/Button.tsx"] }

/-- The witness entity group's first member. -/
def exNormButton : NormalizedEntity :=
  { id := "merged/components/button.ts", name := "Button",
    unifiedPath := "merged/components/button.ts", normalizedCode := "code",
    originalPaths := ["p1/Button.tsx", "p2/Button.tsx"], loc := 10,
    isShared := true }

/-- Witness for C6 at a concrete unmergeable entity. -/
theorem error_conflict_dispatches_skip_witness :
    (dispatchEntity (conflictReport [exConflictErr])
      "merged/components/button.ts" exNormButton []).isSkip = true ∧
    (dispatchEntity (conflictReport [exConflictErr])
      "merged/components/button.ts" exNormButton []).skipStatus =
      some MergeStatus.skippedConflict ∧
    (dispatchEntity (conflictReport [exConflictErr])
      "merged/components/button.ts" exNormButton []).skipNeedsReview =
      some true :=
  error_conflict_dispatches_skip [exConflictErr] "merged/components/button.ts"
    exNormButton [] (by decide)

/-! ## Deep smart merge bookkeeping (deepSmartMerge.ts; claim C7) -/

/-- The externally determined outcome of combining one incoming entity
into the accumulated AST: whether its original analysis was found in the
lookup map, and whether `mergeAsts` changed the generated code.
`parseCodeToAst`, `mergeAsts` and `generate` are the out-of-scope babel
collaborators, so their per-entity effect on the bookkeeping enters the
model as data. -/
structure MergeOutcome where
  analysisFound : Bool
  astChanged : Bool
deriving DecidableEq, Repr

/-- The observable bookkeeping of a `deepSmartMerge` result.
`initialQualityScore` is the value `mergeQualityScore` holds after the
auto-resolvable warnings are folded in and before the per-entity
combination penalties; `mergeQualityScore` is its final value. -/
structure DeepMergeResult where
  dominant : NormalizedEntity
  initialQualityScore : Int
  mergeQualityScore : Int
  resolvedConflicts : List MergeConflict
  status : MergeStatus
  needsManualReview : Bool
  mergeStrategyUsed : MergeStrategy
  mergedFromCount : Nat
deriving DecidableEq, Repr

/-- The score and review bookkeeping of `deepSmartMerge`
(`deepSmartMerge.ts`): the score starts at 100, drops 5 per
auto-resolvable warning (floored at 0), then drops 10 per incoming entity
whose analysis is missing and 2 per AST combination that changed the
code; the dominant entity is the first group member; review is required
when the final score is below 70 or any warning was folded in.
`dominantFound` abstracts whether the dominant entity's original analysis
is present (its absence throws in the source and yields the error
record). -/
def deepSmartMerge (dominantFound : Bool) (first : NormalizedEntity)
    (incoming : List (NormalizedEntity × MergeOutcome))
    (autoResolvableWarnings : List MergeConflict) : DeepMergeResult :=
  let resolvedConflicts := autoResolvableWarnings.map
    (fun w => { w with message := "Auto-resolved: " ++ w.message })
  let scoreAfterWarnings : Int :=
    if autoResolvableWarnings.length > 0 then
      let s : Int := 100 - 5 * autoResolvableWarnings.length
      if s < 0 then 0 else s
    else 100
  match dominantFound with
  | false =>
    { dominant := first, initialQualityScore := scoreAfterWarnings,
      mergeQualityScore := 0, resolvedConflicts := [],
      status := .error, needsManualReview := true,
      mergeStrategyUsed := .errorStrategy,
      mergedFromCount := incoming.length + 1 }
  | true =>
    let finalScore := incoming.foldl
      (fun sc eo =>
        if eo.2.analysisFound = false then sc - 10
        else if eo.2.astChanged then sc - 2 else sc)
      scoreAfterWarnings
    let strategy :=
      if incoming.length > 0 then MergeStrategy.autoCombineDistinct
      else MergeStrategy.autoSelectDominant
    let finalStatus :=
      if resolvedConflicts.length > 0 then MergeStatus.mergedWithWarnings
      else MergeStatus.merged
    { dominant := first, initialQualityScore := scoreAfterWarnings,
      mergeQualityScore := finalScore, resolvedConflicts := resolvedConflicts,
      status := finalStatus,
      needsManualReview :=
        decide (finalScore < 70) || decide (resolvedConflicts.length > 0),
      mergeStrategyUsed := strategy,
      mergedFromCount := incoming.length + 1 }

/-- C7.  For a mergeable entity reaching `deepSmartMerge` with its
dominant analysis present: the initial quality score is 100 minus 5 per
warning-level conflict folded in, never below 0; the dominant source is
the first group member; and the manual-review flag is set exactly when
the quality score is below 70 or any conflict was folded in. -/
theorem deepSmartMerge_plan_properties (first : NormalizedEntity)
    (incoming : List (NormalizedEntity × MergeOutcome))
    (warnings : List MergeConflict) :
    (deepSmartMerge true first incoming warnings).initialQualityScore =
      max 0 (100 - 5 * (warnings.length : Int)) ∧
    0 ≤ (deepSmartMerge true first incoming warnings).initialQualityScore ∧
    (deepSmartMerge true first incoming warnings).dominant = first ∧
    ((deepSmartMerge true first incoming warnings).needsManualReview = true ↔
      ((deepSmartMerge true first incoming warnings).mergeQualityScore < 70 ∨
        warnings ≠ [])) := by
  have hscore : (deepSmartMerge true first incoming warnings).initialQualityScore =
      max 0 (100 - 5 * (warnings.length : Int)) := by
    unfold deepSmartMerge
    dsimp only
    split_ifs with h1 h2 <;> omega
  refine ⟨hscore, by rw [hscore]; exact le_max_left 0 _, ?_, ?_⟩
  · unfold deepSmartMerge
    dsimp only
  · unfold deepSmartMerge
    dsimp only
    simp only [Bool.or_eq_true, decide_eq_true_eq, List.length_map, gt_iff_lt,
      List.length_pos]

end FusionEngine
